import Mathlib

/-!
Verification of the size-analysis core of the Microplastic Detection Streamlit app
(`src/app.py`). The app parses a JSON detection response (fields defaulting when
missing), converts each bounding box to a physical size
`size_nm = sqrt((width_px * PIXEL_TO_NM) * (height_px * PIXEL_TO_NM))`, and, when the
size list is non-empty, computes min/max/mean, thresholds `min_size * 1.10` and
`max_size * 0.90`, bucket counts, and the residual `avg_count`. Python floats are
modelled by real numbers; the generic statistics layer is stated over any linear
ordered field so that it also applies to exact rational inputs.
-/

namespace MicroplasticApp

/-- A bounding box as it arrives in the JSON response: `width`/`height` keys may be
absent (`box.get("width", 0)` in `app.py`). -/
structure RawBox where
  width? : Option ℝ
  height? : Option ℝ

/-- `box.get("width", 0)` (app.py line 102). -/
def RawBox.width (b : RawBox) : ℝ := b.width?.getD 0

/-- `box.get("height", 0)` (app.py line 103). -/
def RawBox.height (b : RawBox) : ℝ := b.height?.getD 0

/-- The JSON body of the detection response; every field may be missing. -/
structure DetectionResponse where
  total_count? : Option ℤ
  boxes? : Option (List RawBox)
  status? : Option String
  risk_score? : Option ℝ

/-- `data.get("total_count", 0)` (app.py line 85). -/
def DetectionResponse.total_count (d : DetectionResponse) : ℤ := d.total_count?.getD 0

/-- `data.get("boxes", [])` (app.py line 86). -/
def DetectionResponse.boxes (d : DetectionResponse) : List RawBox := d.boxes?.getD []

/-- `data.get("status", "UNKNOWN")` (app.py line 87). -/
def DetectionResponse.status (d : DetectionResponse) : String := d.status?.getD "UNKNOWN"

/-- `data.get("risk_score", 0)` (app.py line 88). -/
def DetectionResponse.risk_score (d : DetectionResponse) : ℝ := d.risk_score?.getD 0

/-- Per-box size (app.py lines 105-107):
`width_nm = width_px * pixel_to_nm`, `height_nm = height_px * pixel_to_nm`,
`size_nm = sqrt(width_nm * height_nm)`. -/
noncomputable def size_nm (pixel_to_nm : ℝ) (b : RawBox) : ℝ :=
  Real.sqrt ((b.width * pixel_to_nm) * (b.height * pixel_to_nm))

/-- The `sizes_nm` list built by the loop at app.py lines 101-109, in input order. -/
noncomputable def sizes_nm (pixel_to_nm : ℝ) (boxes : List RawBox) : List ℝ :=
  boxes.map (size_nm pixel_to_nm)

/-- `min(sizes_nm)` (app.py line 120); Python folds `min` over the list starting
from its head. The `[]` case is unreachable in the app (guarded by `if sizes_nm:`). -/
def min_size {α : Type} [LinearOrderedField α] : List α → α
  | [] => 0
  | a :: t => t.foldl min a

/-- `max(sizes_nm)` (app.py line 121). -/
def max_size {α : Type} [LinearOrderedField α] : List α → α
  | [] => 0
  | a :: t => t.foldl max a

/-- `sum(sizes_nm) / len(sizes_nm)` (app.py line 122). -/
def avg_size {α : Type} [LinearOrderedField α] (l : List α) : α :=
  l.sum / l.length

/-- `min_thresh = min_size * 1.10` (app.py line 124). -/
def min_thresh {α : Type} [LinearOrderedField α] (l : List α) : α :=
  min_size l * 1.10

/-- `max_thresh = max_size * 0.90` (app.py line 125). -/
def max_thresh {α : Type} [LinearOrderedField α] (l : List α) : α :=
  max_size l * 0.90

/-- `min_count = sum(s <= min_thresh for s in sizes_nm)` (app.py line 127). -/
def min_count {α : Type} [LinearOrderedField α] (l : List α) : ℕ :=
  l.countP (fun s => decide (s ≤ min_thresh l))

/-- `max_count = sum(s >= max_thresh for s in sizes_nm)` (app.py line 128). -/
def max_count {α : Type} [LinearOrderedField α] (l : List α) : ℕ :=
  l.countP (fun s => decide (s ≥ max_thresh l))

/-- `avg_count = total_count - min_count - max_count` (app.py line 129): a residual
over the integers, not a predicate count. -/
def avg_count {α : Type} [LinearOrderedField α] (total_count : ℤ) (l : List α) : ℤ :=
  total_count - min_count l - max_count l

/-- The summary values computed in the `if sizes_nm:` block (app.py lines 119-129). -/
structure SizeSummary (α : Type) where
  min_size : α
  max_size : α
  avg_size : α
  min_count : ℕ
  max_count : ℕ
  avg_count : ℤ

/-- Bundle the statistics of app.py lines 120-129 for a (non-empty) size list. -/
def mkSummary {α : Type} [LinearOrderedField α] (total_count : ℤ) (l : List α) :
    SizeSummary α :=
  { min_size := min_size l
    max_size := max_size l
    avg_size := avg_size l
    min_count := min_count l
    max_count := max_count l
    avg_count := avg_count total_count l }

/-- The size-analysis step (app.py lines 97-149): build `sizes_nm` from the boxes; if
it is empty take the `else` branch (`st.info("No microplastics detected.")`,
modelled as `none` = EmptyInput), otherwise produce the sizes and the summary. -/
noncomputable def compute (pixel_to_nm : ℝ) (total_count : ℤ) (boxes : List RawBox) :
    Option (List ℝ × SizeSummary ℝ) :=
  let sizes := sizes_nm pixel_to_nm boxes
  if sizes.isEmpty then none
  else some (sizes, mkSummary total_count sizes)

/-- Outcome of the HTTP call at app.py lines 66-75: either the transport raised
(`except` branch) or a response with a status code and parsed JSON body came back. -/
inductive ApiResult where
  | transportError
  | httpResponse (status_code : ℕ) (body : DetectionResponse)

/-- The module-level configuration constants `PIXEL_TO_NM` and `RISK_THRESHOLD`
(app.py lines 11-12). `RISK_THRESHOLD` is declared but never read afterwards. -/
structure Config where
  pixel_to_nm : ℝ
  risk_threshold : ℝ

/-- `PIXEL_TO_NM = 100`, `RISK_THRESHOLD = 15` (app.py lines 11-12). -/
def defaultConfig : Config :=
  { pixel_to_nm := 100, risk_threshold := 15 }

/-- What the flow after the API call produces: `halted` models `st.stop()` (nothing
further rendered), `rendered` carries every value the remainder of the script
displays (summary lines plus the size analysis feeding the chart). -/
inductive FlowOutcome where
  | halted
  | rendered (total_count : ℤ) (risk_score : ℝ) (status : String)
      (analysis : Option (List ℝ × SizeSummary ℝ))

/-- The post-call flow of app.py lines 66-149: a transport failure or a non-200
status stops the script before any statistics; otherwise the response is parsed
with defaults and the size analysis runs. -/
noncomputable def runFlow (cfg : Config) (r : ApiResult) : FlowOutcome :=
  match r with
  | .transportError => .halted
  | .httpResponse code body =>
      if code ≠ 200 then .halted
      else .rendered body.total_count body.risk_score body.status
        (compute cfg.pixel_to_nm body.total_count body.boxes)

/-- The spec's identical-boxes scenario: three boxes, each `{w:1, h:1}`. -/
def threeUnitBoxes : List RawBox :=
  [⟨some 1, some 1⟩, ⟨some 1, some 1⟩, ⟨some 1, some 1⟩]

/- ------------------- helper lemmas on folded min/max ------------------- -/

lemma foldl_min_le_init {β : Type} [LinearOrder β] (l : List β) (a : β) :
    l.foldl min a ≤ a := by
  induction l generalizing a with
  | nil => exact le_refl a
  | cons b t ih => exact le_trans (ih (min a b)) (min_le_left a b)

lemma foldl_min_le_mem {β : Type} [LinearOrder β] (l : List β) (a x : β) (hx : x ∈ l) :
    l.foldl min a ≤ x := by
  induction l generalizing a with
  | nil => cases hx
  | cons b t ih =>
    rcases List.mem_cons.mp hx with rfl | hx2
    · exact le_trans (foldl_min_le_init t _) (min_le_right a _)
    · exact ih (min a b) hx2

lemma foldl_min_mem {β : Type} [LinearOrder β] (l : List β) (a : β) :
    l.foldl min a ∈ a :: l := by
  induction l generalizing a with
  | nil => exact List.mem_singleton.mpr rfl
  | cons b t ih =>
    simp only [List.foldl_cons]
    rcases List.mem_cons.mp (ih (min a b)) with heq | hmem
    · rcases min_choice a b with h1 | h1
      · rw [heq, h1]; exact List.mem_cons_self _ _
      · rw [heq, h1]; exact List.mem_cons_of_mem _ (List.mem_cons_self _ _)
    · exact List.mem_cons_of_mem _ (List.mem_cons_of_mem _ hmem)

lemma init_le_foldl_max {β : Type} [LinearOrder β] (l : List β) (a : β) :
    a ≤ l.foldl max a := by
  induction l generalizing a with
  | nil => exact le_refl a
  | cons b t ih => exact le_trans (le_max_left a b) (ih (max a b))

lemma mem_le_foldl_max {β : Type} [LinearOrder β] (l : List β) (a x : β) (hx : x ∈ l) :
    x ≤ l.foldl max a := by
  induction l generalizing a with
  | nil => cases hx
  | cons b t ih =>
    rcases List.mem_cons.mp hx with rfl | hx2
    · exact le_trans (le_max_right a _) (init_le_foldl_max t _)
    · exact ih (max a b) hx2

lemma foldl_max_mem {β : Type} [LinearOrder β] (l : List β) (a : β) :
    l.foldl max a ∈ a :: l := by
  induction l generalizing a with
  | nil => exact List.mem_singleton.mpr rfl
  | cons b t ih =>
    simp only [List.foldl_cons]
    rcases List.mem_cons.mp (ih (max a b)) with heq | hmem
    · rcases max_choice a b with h1 | h1
      · rw [heq, h1]; exact List.mem_cons_self _ _
      · rw [heq, h1]; exact List.mem_cons_of_mem _ (List.mem_cons_self _ _)
    · exact List.mem_cons_of_mem _ (List.mem_cons_of_mem _ hmem)

lemma min_size_mem {α : Type} [LinearOrderedField α] (l : List α) (h : l ≠ []) :
    min_size l ∈ l := by
  cases l with
  | nil => exact absurd rfl h
  | cons a t => exact foldl_min_mem t a

lemma min_size_le {α : Type} [LinearOrderedField α] (l : List α) (x : α) (hx : x ∈ l) :
    min_size l ≤ x := by
  cases l with
  | nil => cases hx
  | cons a t =>
    rcases List.mem_cons.mp hx with rfl | h2
    · exact foldl_min_le_init t _
    · exact foldl_min_le_mem t _ _ h2

lemma max_size_mem {α : Type} [LinearOrderedField α] (l : List α) (h : l ≠ []) :
    max_size l ∈ l := by
  cases l with
  | nil => exact absurd rfl h
  | cons a t => exact foldl_max_mem t a

lemma le_max_size {α : Type} [LinearOrderedField α] (l : List α) (x : α) (hx : x ∈ l) :
    x ≤ max_size l := by
  cases l with
  | nil => cases hx
  | cons a t =>
    rcases List.mem_cons.mp hx with rfl | h2
    · exact init_le_foldl_max t _
    · exact mem_le_foldl_max t _ _ h2

lemma countP_add_countP_le_length {β : Type} (p q : β → Bool) (l : List β)
    (h : ∀ a ∈ l, p a = true → q a = false) :
    l.countP p + l.countP q ≤ l.length := by
  induction l with
  | nil => simp
  | cons a t ih =>
    have ht := ih (fun b hb hpb => h b (List.mem_cons_of_mem _ hb) hpb)
    simp only [List.countP_cons, List.length_cons]
    by_cases hp : p a = true
    · have hq := h a (List.mem_cons_self _ _) hp
      simp only [hp, hq, if_true, Bool.false_eq_true, if_false]
      omega
    · simp only [hp, Bool.false_eq_true, if_false]
      by_cases hq : q a = true
      · simp only [hq, if_true]; omega
      · simp only [hq, Bool.false_eq_true, if_false]; omega

/- ------------------- claim theorems ------------------- -/

/-- C2: each derived size is `sqrt((width_px * pixel_to_nm) * (height_px * pixel_to_nm))`,
the geometric mean of the two converted dimensions, and the size list has one entry per
box, in the same order as the input boxes. -/
theorem sizes_nm_pointwise (p : ℝ) (boxes : List RawBox) :
    (sizes_nm p boxes).length = boxes.length ∧
    ∀ i : ℕ, (sizes_nm p boxes)[i]? =
      (boxes[i]?).map (fun b => Real.sqrt ((b.width * p) * (b.height * p))) := by
  refine ⟨by simp [sizes_nm], fun i => ?_⟩
  rw [sizes_nm, List.getElem?_map]
  rfl

/-- C5: with an empty box list, `compute` yields the EmptyInput outcome (`none`):
no summary statistics, no bucket counts, no chart data — not a zero-filled summary. -/
theorem compute_empty_is_EmptyInput (p : ℝ) (total : ℤ) :
    compute p total [] = none := rfl

/-- C6: `size_nm` is symmetric in the two dimensions: swapping `width_px` and
`height_px` yields the same size. -/
theorem size_nm_symm (p : ℝ) (w h : Option ℝ) :
    size_nm p ⟨w, h⟩ = size_nm p ⟨h, w⟩ :=
  congrArg Real.sqrt (mul_comm _ _)

/-- C7: every missing response field defaults (`total_count → 0`, `boxes → []`,
`status → "UNKNOWN"`, `risk_score → 0`), a box missing width or height contributes
0 for that dimension, and a 200 response with no `boxes` key follows the EmptyInput
path (`analysis = none`) rather than failing. -/
theorem missing_fields_default (t : Option ℤ) (bs : Option (List RawBox))
    (s : Option String) (r : Option ℝ) (w h : Option ℝ) (cfg : Config) :
    DetectionResponse.total_count ⟨none, bs, s, r⟩ = 0 ∧
    DetectionResponse.boxes ⟨t, none, s, r⟩ = [] ∧
    DetectionResponse.status ⟨t, bs, none, r⟩ = "UNKNOWN" ∧
    DetectionResponse.risk_score ⟨t, bs, s, none⟩ = 0 ∧
    RawBox.width ⟨none, h⟩ = 0 ∧
    RawBox.height ⟨w, none⟩ = 0 ∧
    runFlow cfg (.httpResponse 200 ⟨t, none, s, r⟩) =
      .rendered (t.getD 0) (r.getD 0) (s.getD "UNKNOWN") none :=
  ⟨rfl, rfl, rfl, rfl, rfl, rfl, by
    simp [runFlow, DetectionResponse.total_count, DetectionResponse.boxes,
      DetectionResponse.status, DetectionResponse.risk_score, compute, sizes_nm]⟩

/-- C8: a transport failure or a non-200 status halts the flow immediately:
no statistics are computed and no chart is rendered. -/
theorem fail_fast (cfg : Config) (code : ℕ) (body : DetectionResponse)
    (h : code ≠ 200) :
    runFlow cfg .transportError = .halted ∧
    runFlow cfg (.httpResponse code body) = .halted :=
  ⟨rfl, by simp [runFlow, h]⟩

/-- C8 witness: a 404 response and a transport error both halt the flow. -/
theorem fail_fast_witness :
    (404 ≠ 200) ∧
    (runFlow defaultConfig .transportError = .halted ∧
     runFlow defaultConfig (.httpResponse 404 ⟨none, none, none, none⟩) = .halted) :=
  ⟨by decide, fail_fast defaultConfig 404 ⟨none, none, none, none⟩ (by decide)⟩

/-- C9: the `risk_threshold` configuration constant is inert — for every API result,
runs differing only in `risk_threshold` produce identical outputs. -/
theorem risk_threshold_inert (p rt₁ rt₂ : ℝ) (r : ApiResult) :
    runFlow ⟨p, rt₁⟩ r = runFlow ⟨p, rt₂⟩ r := by
  cases r with
  | transportError => rfl
  | httpResponse code body => rfl

/-- C1: for every non-empty box sequence, the summary values are exactly the spec's
formulas: `min_size`/`max_size` are the least/greatest derived size, `avg_size` is
the arithmetic mean, the thresholds are `min_size * 1.10` and `max_size * 0.90`,
the bucket counts literally count the sizes satisfying `<= min_thresh` /
`>= max_thresh`, and `avg_count` is the residual `total_count - min_count - max_count`. -/
theorem summary_formulas (p : ℝ) (total : ℤ) (boxes : List RawBox) (h : boxes ≠ []) :
    min_size (sizes_nm p boxes) ∈ sizes_nm p boxes ∧
    (∀ x ∈ sizes_nm p boxes, min_size (sizes_nm p boxes) ≤ x) ∧
    max_size (sizes_nm p boxes) ∈ sizes_nm p boxes ∧
    (∀ x ∈ sizes_nm p boxes, x ≤ max_size (sizes_nm p boxes)) ∧
    avg_size (sizes_nm p boxes) * ((sizes_nm p boxes).length : ℝ) =
      (sizes_nm p boxes).sum ∧
    min_thresh (sizes_nm p boxes) = min_size (sizes_nm p boxes) * 1.10 ∧
    max_thresh (sizes_nm p boxes) = max_size (sizes_nm p boxes) * 0.90 ∧
    min_count (sizes_nm p boxes) =
      ((sizes_nm p boxes).filter
        (fun s => decide (s ≤ min_thresh (sizes_nm p boxes)))).length ∧
    max_count (sizes_nm p boxes) =
      ((sizes_nm p boxes).filter
        (fun s => decide (s ≥ max_thresh (sizes_nm p boxes)))).length ∧
    avg_count total (sizes_nm p boxes) =
      total - min_count (sizes_nm p boxes) - max_count (sizes_nm p boxes) := by
  have hne : sizes_nm p boxes ≠ [] := by
    simpa [sizes_nm] using h
  set l := sizes_nm p boxes with hl
  have hlen : (l.length : ℝ) ≠ 0 := by
    exact_mod_cast fun h0 => hne (List.length_eq_zero.mp (by exact_mod_cast h0))
  refine ⟨min_size_mem l hne, fun x hx => min_size_le l x hx,
    max_size_mem l hne, fun x hx => le_max_size l x hx, ?_, rfl, rfl,
    List.countP_eq_length_filter _ _, List.countP_eq_length_filter _ _, rfl⟩
  rw [avg_size, div_mul_cancel₀ _ hlen]

/-- C1 witness: the summary formulas instantiated at one box `{w:1, h:1}` with
`pixel_to_nm = 100` and `total_count = 1`. -/
theorem summary_formulas_witness :
    ([(⟨some 1, some 1⟩ : RawBox)] ≠ []) ∧
    (min_size (sizes_nm 100 [⟨some 1, some 1⟩]) ∈ sizes_nm 100 [⟨some 1, some 1⟩] ∧
    (∀ x ∈ sizes_nm 100 [⟨some 1, some 1⟩],
      min_size (sizes_nm 100 [⟨some 1, some 1⟩]) ≤ x) ∧
    max_size (sizes_nm 100 [⟨some 1, some 1⟩]) ∈ sizes_nm 100 [⟨some 1, some 1⟩] ∧
    (∀ x ∈ sizes_nm 100 [⟨some 1, some 1⟩],
      x ≤ max_size (sizes_nm 100 [⟨some 1, some 1⟩])) ∧
    avg_size (sizes_nm 100 [⟨some 1, some 1⟩]) *
      ((sizes_nm 100 [⟨some 1, some 1⟩]).length : ℝ) =
      (sizes_nm 100 [⟨some 1, some 1⟩]).sum ∧
    min_thresh (sizes_nm 100 [⟨some 1, some 1⟩]) =
      min_size (sizes_nm 100 [⟨some 1, some 1⟩]) * 1.10 ∧
    max_thresh (sizes_nm 100 [⟨some 1, some 1⟩]) =
      max_size (sizes_nm 100 [⟨some 1, some 1⟩]) * 0.90 ∧
    min_count (sizes_nm 100 [⟨some 1, some 1⟩]) =
      ((sizes_nm 100 [⟨some 1, some 1⟩]).filter
        (fun s => decide (s ≤ min_thresh (sizes_nm 100 [⟨some 1, some 1⟩])))).length ∧
    max_count (sizes_nm 100 [⟨some 1, some 1⟩]) =
      ((sizes_nm 100 [⟨some 1, some 1⟩]).filter
        (fun s => decide (s ≥ max_thresh (sizes_nm 100 [⟨some 1, some 1⟩])))).length ∧
    avg_count 1 (sizes_nm 100 [⟨some 1, some 1⟩]) =
      1 - min_count (sizes_nm 100 [⟨some 1, some 1⟩]) -
        max_count (sizes_nm 100 [⟨some 1, some 1⟩])) :=
  ⟨List.cons_ne_nil _ _, summary_formulas 100 1 [⟨some 1, some 1⟩] (List.cons_ne_nil _ _)⟩

/-- C3: for a non-empty size sequence with `total_count = length`, the bucket counts
can only exceed the total when the thresholds cross (`min_thresh ≥ max_thresh`), and
when `min_thresh < max_thresh` the three bucket counts sum exactly to the total. -/
theorem buckets_partition_unless_thresholds_cross (total : ℤ) (l : List ℝ)
    (h : l ≠ []) (ht : total = l.length) :
    (total < (min_count l : ℤ) + (max_count l : ℤ) → max_thresh l ≤ min_thresh l) ∧
    (min_thresh l < max_thresh l →
      (min_count l : ℤ) + avg_count total l + (max_count l : ℤ) = total) := by
  constructor
  · intro hgt
    by_contra hcon
    push_neg at hcon
    have hdisj : ∀ s ∈ l, (decide (s ≤ min_thresh l)) = true →
        (decide (s ≥ max_thresh l)) = false := by
      intro s _ hps
      have h1 : s ≤ min_thresh l := of_decide_eq_true hps
      exact decide_eq_false fun hq => absurd (le_trans hq h1) (not_le_of_lt hcon)
    have hle : min_count l + max_count l ≤ l.length :=
      countP_add_countP_le_length _ _ l hdisj
    rw [ht] at hgt
    exact absurd hgt (by exact_mod_cast Nat.not_lt.mpr hle)
  · intro _
    rw [avg_count]
    ring

/-- C3 witness: the partition property instantiated at the singleton size list `[1]`
with `total_count = 1`. -/
theorem buckets_partition_witness :
    (([(1:ℝ)] ≠ []) ∧ (1:ℤ) = ([(1:ℝ)].length : ℤ)) ∧
    ((1 < (min_count [(1:ℝ)] : ℤ) + (max_count [(1:ℝ)] : ℤ) →
        max_thresh [(1:ℝ)] ≤ min_thresh [(1:ℝ)]) ∧
     (min_thresh [(1:ℝ)] < max_thresh [(1:ℝ)] →
        (min_count [(1:ℝ)] : ℤ) + avg_count 1 [(1:ℝ)] + (max_count [(1:ℝ)] : ℤ) = 1)) :=
  ⟨⟨List.cons_ne_nil _ _, by simp⟩,
    buckets_partition_unless_thresholds_cross 1 [(1:ℝ)] (List.cons_ne_nil _ _) (by simp)⟩

/-- C10: for every non-empty list of non-negative sizes, both extreme buckets are
non-empty: the minimum size satisfies `min_size ≤ min_size * 1.10` and the maximum
satisfies `max_size ≥ max_size * 0.90`, so `min_count ≥ 1` and `max_count ≥ 1`. -/
theorem extreme_buckets_nonempty (l : List ℝ) (h : l ≠ [])
    (h0 : ∀ s ∈ l, 0 ≤ s) :
    1 ≤ min_count l ∧ 1 ≤ max_count l := by
  constructor
  · have hm : min_size l ∈ l := min_size_mem l h
    have hle : min_size l ≤ min_thresh l := by
      rw [min_thresh]
      exact le_mul_of_one_le_right (h0 _ hm) (by norm_num)
    exact List.countP_pos_iff.mpr ⟨min_size l, hm, decide_eq_true hle⟩
  · have hm : max_size l ∈ l := max_size_mem l h
    have hle : max_size l ≥ max_thresh l := by
      rw [max_thresh]
      exact mul_le_of_le_one_right (h0 _ hm) (by norm_num)
    exact List.countP_pos_iff.mpr ⟨max_size l, hm, decide_eq_true hle⟩

/-- C10 witness: both extreme buckets are non-empty for the size list `[1]`. -/
theorem extreme_buckets_nonempty_witness :
    (([(1:ℝ)] ≠ []) ∧ (∀ s ∈ [(1:ℝ)], 0 ≤ s)) ∧
    (1 ≤ min_count [(1:ℝ)] ∧ 1 ≤ max_count [(1:ℝ)]) :=
  ⟨⟨List.cons_ne_nil _ _, by norm_num⟩,
    extreme_buckets_nonempty [(1:ℝ)] (List.cons_ne_nil _ _) (by norm_num)⟩

/-- C4: three identical boxes `{w:1, h:1}` with `pixel_to_nm = 100` and
`total_count = 3` give sizes `[100, 100, 100]`, thresholds `110 ≥ 90`, every size
lands in both extreme buckets (`min_count = max_count = 3`), and the residual is
`avg_count = 3 - 3 - 3 = -3`, produced without clamping. -/
theorem identical_boxes_negative_residual :
    sizes_nm 100 threeUnitBoxes = [100, 100, 100] ∧
    min_thresh (sizes_nm 100 threeUnitBoxes) = 110 ∧
    max_thresh (sizes_nm 100 threeUnitBoxes) = 90 ∧
    min_count (sizes_nm 100 threeUnitBoxes) = 3 ∧
    max_count (sizes_nm 100 threeUnitBoxes) = 3 ∧
    avg_count 3 (sizes_nm 100 threeUnitBoxes) = -3 := by
  have hbox : size_nm 100 ⟨some 1, some 1⟩ = 100 := by
    rw [size_nm]
    rw [show (RawBox.width ⟨some 1, some 1⟩ * 100) * (RawBox.height ⟨some 1, some 1⟩ * 100)
        = 100 * 100 by rw [RawBox.width, RawBox.height]; norm_num]
    exact Real.sqrt_mul_self (by norm_num)
  have hs : sizes_nm 100 threeUnitBoxes = [100, 100, 100] := by
    rw [sizes_nm, threeUnitBoxes]
    simp [hbox]
  have hmin : min_size ([100, 100, 100] : List ℝ) = 100 := by
    simp [min_size, min_self]
  have hmax : max_size ([100, 100, 100] : List ℝ) = 100 := by
    simp [max_size, max_self]
  have hminthresh : min_thresh ([100, 100, 100] : List ℝ) = 110 := by
    rw [min_thresh, hmin]; norm_num
  have hmaxthresh : max_thresh ([100, 100, 100] : List ℝ) = 90 := by
    rw [max_thresh, hmax]; norm_num
  have hminc : min_count ([100, 100, 100] : List ℝ) = 3 := by
    rw [min_count]
    simp only [hminthresh]
    norm_num [List.countP_cons, List.countP_nil]
  have hmaxc : max_count ([100, 100, 100] : List ℝ) = 3 := by
    rw [max_count]
    simp only [hmaxthresh]
    norm_num [List.countP_cons, List.countP_nil]
  refine ⟨hs, ?_, ?_, ?_, ?_, ?_⟩ <;> rw [hs]
  · exact hminthresh
  · exact hmaxthresh
  · exact hminc
  · exact hmaxc
  · rw [avg_count, hminc, hmaxc]; norm_num
